import Mathlib

/-!
Shallow embedding of the `food-fortress` core (`src/app/backend.rs`,
`src/app/log.rs`): calendar table, `BestBefore` expiry dates, `Food`
items, the `Fridge` collection with its load/sort/save cycle, the
serde-derived JSON (de)serialization, and the log sink.

Conventions of the embedding:
* Rust `u8`/`u16`/`u64` values are modelled as `Nat` (the arithmetic in
  the source never comes close to the wrap-around points on the inputs
  the claims quantify over; `checked_sub(..).unwrap_or_default()` is Nat
  truncated subtraction).
* The impure clock (`BestBefore::today()`) is passed explicitly as a
  `today : BestBefore` argument.
* The backing JSON file is modelled as an explicit `StoreState` value
  that the store operations thread through.
* Rust `String` is modelled as Lean `String`; both orders are
  lexicographic by code point (UTF-8 byte order agrees with code-point
  order).
-/

open Batteries (OrientedCmp TransCmp)

/-- `const DAY_COUNT_FOR_MONTH: [u8; 12]` — February is fixed at 29,
deliberately ignoring leap years. -/
def DAY_COUNT_FOR_MONTH : List Nat := [31, 29, 31, 30, 31, 30, 31, 31, 30, 31, 30, 31]

/-- `const MONTHS: [u8; 12]`. -/
def MONTHS : List Nat := [1, 2, 3, 4, 5, 6, 7, 8, 9, 10, 11, 12]

/-- `enum FoodState` — the three urgency states. -/
inductive FoodState where
  | FarFromExpiring
  | CloseFromExpiring
  | Expired
deriving DecidableEq

/-- `struct BestBefore { day: u8, month: u8 }`. -/
structure BestBefore where
  day : Nat
  month : Nat
deriving DecidableEq

/-- `impl Ord for BestBefore`: compare months, tie-break on days. -/
def BestBefore.cmp (a b : BestBefore) : Ordering :=
  match compare a.month b.month with
  | .eq => compare a.day b.day
  | o => o

instance : Ord BestBefore := ⟨BestBefore.cmp⟩

/-- `BestBefore::would_be_valid(day, month)`.  The Rust source indexes
`DAY_COUNT_FOR_MONTH[month - 1]` only after the short-circuiting
`MONTHS.contains(&month)` guard, so the index is always in range when
evaluated; `getD _ 0` returns the same values on every reachable path. -/
def BestBefore.would_be_valid (day month : Nat) : Bool :=
  MONTHS.contains month
    && (decide (1 ≤ day) && decide (day ≤ DAY_COUNT_FOR_MONTH.getD (month - 1) 0))

/-- `BestBefore::days_count(&self)`: fold of the day-count table over
`0..self.month - 1`, plus `self.day`. -/
def BestBefore.days_count (bb : BestBefore) : Nat :=
  (List.range (bb.month - 1)).foldl
    (fun count i => count + DAY_COUNT_FOR_MONTH.getD i 0) 0
  + bb.day

/-- `BestBefore::days_left(&self)`: `checked_sub(..).unwrap_or_default()`
is exactly truncated subtraction on `Nat`.  The source reads the clock
through `BestBefore::today()`; here `today` is an explicit argument. -/
def BestBefore.days_left (bb today : BestBefore) : Nat :=
  bb.days_count - today.days_count

/-- `BestBefore::state(&self)`: `0 => Expired`, `1..=3 => CloseFromExpiring`,
`_ => FarFromExpiring`. -/
def BestBefore.state (bb today : BestBefore) : FoodState :=
  match bb.days_left today with
  | 0 => FoodState.Expired
  | 1 | 2 | 3 => FoodState.CloseFromExpiring
  | _ => FoodState.FarFromExpiring

/-- The urgency classification as a pure function of the remaining day
count — the body of the `match` in `BestBefore::state`, split out so the
boundary cases can be analysed independently of the date arithmetic. -/
def stateOfDays (n : Nat) : FoodState :=
  match n with
  | 0 => FoodState.Expired
  | 1 | 2 | 3 => FoodState.CloseFromExpiring
  | _ => FoodState.FarFromExpiring

/-- `struct Food { name: String, best_before: BestBefore, id: u64, open: bool }`.
The Rust field `open` is called `isOpen` here because `open` is a Lean
keyword. -/
structure Food where
  name : String
  best_before : BestBefore
  id : Nat
  isOpen : Bool
deriving DecidableEq

/-- `impl Ord for Food`: `best_before`, tie-break `name`, tie-break `id`.
The `open` flag does not participate. -/
def Food.cmp (a b : Food) : Ordering :=
  match compare a.best_before b.best_before with
  | .eq =>
    match compare a.name b.name with
    | .eq => compare a.id b.id
    | o => o
  | o => o

instance : Ord Food := ⟨Food.cmp⟩

/-- The non-strict order induced by `Food.cmp` (what `Vec::sort` sorts by). -/
def Food.le (a b : Food) : Prop := Food.cmp a b ≠ .gt

instance : DecidableRel Food.le := fun a b =>
  inferInstanceAs (Decidable (Food.cmp a b ≠ .gt))


/-- Comparator lawfulness for `BestBefore.cmp`, by rewriting it into the
lexicographic composite of the month and day comparisons. -/
instance : Batteries.TransOrd BestBefore := by
  have h : (compare : BestBefore → BestBefore → Ordering)
      = compareLex (compareOn (·.month)) (compareOn (·.day)) := by
    funext a b
    show BestBefore.cmp a b = _
    simp only [BestBefore.cmp, compareLex, compareOn]
    cases compare a.month b.month <;> rfl
  show TransCmp (compare : BestBefore → BestBefore → Ordering)
  rw [h]
  infer_instance

/-- Comparator lawfulness for `Food.cmp`, by rewriting it into the
lexicographic composite of the `best_before`, `name` and `id`
comparisons. -/
instance : TransCmp Food.cmp := by
  have h : Food.cmp = compareLex (compareOn (·.best_before))
      (compareLex (compareOn (·.name)) (compareOn (·.id))) := by
    funext a b
    simp only [Food.cmp, compareLex, compareOn]
    cases compare a.best_before b.best_before <;> cases compare a.name b.name <;> rfl
  rw [h]
  infer_instance

instance : IsTotal Food Food.le := by
  constructor
  intro a b
  unfold Food.le
  rcases h : Food.cmp a b with _ | _ | _
  · exact Or.inl (by simp [h])
  · exact Or.inl (by simp [h])
  · have hba : Food.cmp b a = .lt := OrientedCmp.cmp_eq_gt.mp h
    exact Or.inr (by simp [hba])

instance : IsTrans Food Food.le := ⟨fun _ _ _ => TransCmp.le_trans⟩

/-- `pub type Foods = Vec<Food>` inside `struct Fridge { foods: Foods }`. -/
structure Fridge where
  foods : List Food

/-- `Food::new(name, day, month)`: the fresh id is `max` of the existing
ids with `unwrap_or(0)`, plus one.  The source reads the existing foods
through `Fridge::open()`; here the opened fridge is an explicit argument. -/
def Food.new (name : String) (day month : Nat) (fridge : Fridge) : Food :=
  let id := ((fridge.foods.map Food.id).max?.getD 0) + 1
  let best_before := BestBefore.mk day month
  { name := name, best_before := best_before, id := id, isOpen := false }

/-- `Fridge::add`: `self.foods.push(food)`. -/
def Fridge.add (f : Fridge) (food : Food) : Fridge :=
  ⟨f.foods ++ [food]⟩

/-- `Fridge::remove`: keep every food that is not structurally equal to
`food` (Rust `filter(|f| f != food)` with the derived `PartialEq`). -/
def Fridge.remove (f : Fridge) (food : Food) : Fridge :=
  ⟨f.foods.filter (fun x => decide (x ≠ food))⟩

/-! ### JSON model

`serde_json` values and the code generated by
`#[derive(Serialize, Deserialize)]` on `BestBefore`, `Food` and `Fridge`:
a struct serializes to an object with one member per field, keyed by the
Rust field name; deserialization looks each field up by key. -/

/-- A JSON value (the fragment serde uses for this data model). -/
inductive Json where
  | num : Nat → Json
  | str : String → Json
  | bool : Bool → Json
  | arr : List Json → Json
  | obj : List (String × Json) → Json

/-- Field lookup in a JSON object. -/
def Json.getField (j : Json) (key : String) : Option Json :=
  match j with
  | .obj fields => fields.lookup key
  | _ => none

def Json.asNat : Json → Option Nat
  | .num n => some n
  | _ => none

def Json.asStr : Json → Option String
  | .str s => some s
  | _ => none

def Json.asBool : Json → Option Bool
  | .bool b => some b
  | _ => none

/-- `Serialize` for `BestBefore`. -/
def BestBefore.toJson (bb : BestBefore) : Json :=
  .obj [("day", .num bb.day), ("month", .num bb.month)]

/-- `Deserialize` for `BestBefore`. -/
def BestBefore.fromJson (j : Json) : Option BestBefore := do
  let day ← (← j.getField "day").asNat
  let month ← (← j.getField "month").asNat
  pure ⟨day, month⟩

/-- `Serialize` for `Food` (the Rust field `open` keeps its JSON key). -/
def Food.toJson (f : Food) : Json :=
  .obj [("name", .str f.name), ("best_before", f.best_before.toJson),
        ("id", .num f.id), ("open", .bool f.isOpen)]

/-- `Deserialize` for `Food`. -/
def Food.fromJson (j : Json) : Option Food := do
  let name ← (← j.getField "name").asStr
  let best_before ← BestBefore.fromJson (← j.getField "best_before")
  let id ← (← j.getField "id").asNat
  let isOpen ← (← j.getField "open").asBool
  pure ⟨name, best_before, id, isOpen⟩

/-- Elementwise deserialization of the `foods` array. -/
def decodeFoods : List Json → Option (List Food)
  | [] => some []
  | j :: js => do
    let f ← Food.fromJson j
    let fs ← decodeFoods js
    pure (f :: fs)

/-- `Serialize` for `Fridge`. -/
def Fridge.toJson (fr : Fridge) : Json :=
  .obj [("foods", .arr (fr.foods.map Food.toJson))]

/-- `Deserialize` for `Fridge`. -/
def Fridge.fromJson (j : Json) : Option Fridge := do
  match ← j.getField "foods" with
  | .arr items => do
    let foods ← decodeFoods items
    pure ⟨foods⟩
  | _ => none

/-! ### Log sink and store effects (`src/app/log.rs`, `Fridge::open`/`update`) -/

/-- Observable process effects: appending one line to the log file, and
process termination (the `panic!()` in `log::error`). -/
inductive SysEvent where
  | write : String → SysEvent
  | terminate : SysEvent
deriving DecidableEq

/-- `enum Level { Warning, Error }`. -/
inductive LogLevel where
  | Warning
  | Error
deriving DecidableEq

/-- `write!("{:?}", self)` on `Level`. -/
def LogLevel.show : LogLevel → String
  | .Warning => "Warning"
  | .Error => "Error"

/-- `log::log`: format `"{timestamp} {level}: {msg}\n"` and append it to
the log file.  The timestamp comes from the clock; it is an explicit
argument here.  The produced effect trace is a single write. -/
def Log.log (ts : String) (lvl : LogLevel) (msg : String) : List SysEvent :=
  [.write (ts ++ " " ++ lvl.show ++ ": " ++ msg ++ "\n")]

/-- `log::error`: log at `Error` level, then `panic!()`.  The function
returns `!` in Rust; its whole observable behaviour is this effect
trace. -/
def Log.error (ts : String) (msg : String) : List SysEvent :=
  Log.log ts .Error msg ++ [.terminate]

/-- `log::warning`. -/
def Log.warning (ts : String) (msg : String) : List SysEvent :=
  Log.log ts .Warning msg

/-- The backing store: the full contents of `json/fridge.json`. -/
structure StoreState where
  json : Json

/-- `Fridge::open()`: the file read/deserialize outcome is passed in as
`readResult` (`.error msg` for an I/O failure with display text `msg`).
On success the fridge is returned; on any failure the observable outcome
is the `log::error` effect trace. -/
def Fridge.openStore (ts : String) (readResult : Except String Json) :
    Fridge ⊕ List SysEvent :=
  match readResult with
  | .error err => .inr (Log.error ts err)
  | .ok j =>
    match Fridge.fromJson j with
    | none => .inr (Log.error ts "deserialization error")
    | some fr => .inl fr

/-- `Fridge::update(&mut self)`: sort `self.foods`, serialize, and
overwrite the whole backing file.  Returns the mutated fridge and the
new store state (the old store contents are discarded wholesale). -/
def Fridge.update (f : Fridge) (oldStore : StoreState) : Fridge × StoreState :=
  let sorted : Fridge := ⟨List.insertionSort Food.le f.foods⟩
  (sorted, ⟨sorted.toJson⟩)

/-! ## Helper lemmas -/

theorem state_eq_stateOfDays (bb today : BestBefore) :
    bb.state today = stateOfDays (bb.days_left today) := rfl

theorem stateOfDays_ge_four {n : Nat} (h : 4 ≤ n) :
    stateOfDays n = FoodState.FarFromExpiring := by
  obtain ⟨k, rfl⟩ : ∃ k, n = k + 4 := ⟨n - 4, by omega⟩
  rfl

/-- `BestBefore.cmp` agrees with structural equality. -/
theorem BestBefore.cmp_eq_iff (a b : BestBefore) :
    BestBefore.cmp a b = .eq ↔ a = b := by
  unfold BestBefore.cmp
  rcases hm : compare a.month b.month with _ | _ | _
  · simp only []
    constructor
    · nofun
    · rintro rfl
      rw [Nat.compare_eq_lt] at hm
      omega
  · rw [Nat.compare_eq_eq] at hm
    rw [Nat.compare_eq_eq]
    constructor
    · intro hd
      cases a; cases b
      simp_all
    · rintro rfl; rfl
  · simp only []
    constructor
    · nofun
    · rintro rfl
      rw [Nat.compare_eq_gt] at hm
      omega

theorem food_fromJson_toJson (f : Food) :
    Food.fromJson (Food.toJson f) = some f := rfl

theorem decodeFoods_roundtrip (l : List Food) :
    decodeFoods (l.map Food.toJson) = some l := by
  induction l with
  | nil => rfl
  | cons f fs ih => simp [decodeFoods, ih, food_fromJson_toJson]

theorem fridge_fromJson_toJson (l : List Food) :
    Fridge.fromJson (Fridge.toJson ⟨l⟩) = some ⟨l⟩ := by
  simp [Fridge.fromJson, Fridge.toJson, Json.getField, decodeFoods_roundtrip]

/-! ## Claims -/

/-- C1: `classify` returns `Expired` when the remaining day count is 0,
`CloseFromExpiring` when it is 1, 2 or 3, and `FarFromExpiring` when it
is 4 or more; the boundaries are inclusive. -/
theorem C1_classify_boundaries (bb today : BestBefore) :
    (bb.days_left today = 0 → bb.state today = FoodState.Expired)
    ∧ (1 ≤ bb.days_left today → bb.days_left today ≤ 3 →
        bb.state today = FoodState.CloseFromExpiring)
    ∧ (4 ≤ bb.days_left today → bb.state today = FoodState.FarFromExpiring) := by
  rw [state_eq_stateOfDays]
  obtain ⟨n, hn⟩ : ∃ n, bb.days_left today = n := ⟨_, rfl⟩
  rw [hn]
  refine ⟨fun h => by subst h; rfl, fun h1 h3 => ?_, fun h4 => stateOfDays_ge_four h4⟩
  interval_cases n <;> rfl

/-- C1 witness: a date two days out is classified `CloseFromExpiring`. -/
theorem C1_classify_boundaries_w :
    BestBefore.state ⟨10, 1⟩ ⟨8, 1⟩ = FoodState.CloseFromExpiring :=
  (C1_classify_boundaries ⟨10, 1⟩ ⟨8, 1⟩).2.1 (by decide) (by decide)

/-- C2: `days_left` is ordinal-day subtraction clamped to zero on
underflow — never negative, so a date whose ordinal day is below
today's yields exactly 0, the same value as a date equal to today. -/
theorem C2_days_left_clamped (s t : BestBefore) :
    (t.days_count ≤ s.days_count →
      (s.days_left t : Int) = (s.days_count : Int) - (t.days_count : Int))
    ∧ (s.days_count < t.days_count → s.days_left t = 0)
    ∧ t.days_left t = 0 := by
  unfold BestBefore.days_left
  refine ⟨fun h => ?_, fun h => by omega, by omega⟩
  omega

/-- C2 witness: January 5th viewed from January 10th saturates to 0. -/
theorem C2_days_left_clamped_w :
    BestBefore.days_left ⟨5, 1⟩ ⟨10, 1⟩ = 0 :=
  (C2_days_left_clamped ⟨5, 1⟩ ⟨10, 1⟩).2.1 (by decide)

/-- C3: item identity is `max(existing ids) + 1` with the max defaulting
to 0 on an empty collection and the `+ 1` added unconditionally: the
first item of an empty collection gets identity 1, the next 2, and after
removing the item with identity 1 the next created item gets 3. -/
theorem C3_identity_assignment (n1 n2 n3 : String) (d1 m1 d2 m2 d3 m3 : Nat) :
    (∀ (fr : Fridge) (n : String) (d m : Nat),
      (Food.new n d m fr).id = ((fr.foods.map Food.id).max?.getD 0) + 1)
    ∧ (Food.new n1 d1 m1 ⟨[]⟩).id = 1
    ∧ (Food.new n2 d2 m2 (Fridge.add ⟨[]⟩ (Food.new n1 d1 m1 ⟨[]⟩))).id = 2
    ∧ (Food.new n3 d3 m3
        (Fridge.remove
          (Fridge.add (Fridge.add ⟨[]⟩ (Food.new n1 d1 m1 ⟨[]⟩))
            (Food.new n2 d2 m2 (Fridge.add ⟨[]⟩ (Food.new n1 d1 m1 ⟨[]⟩))))
          (Food.new n1 d1 m1 ⟨[]⟩))).id = 3 := by
  refine ⟨fun _ _ _ _ => rfl, rfl, rfl, ?_⟩
  set f1 := Food.new n1 d1 m1 ⟨[]⟩ with hf1
  set f2 := Food.new n2 d2 m2 (Fridge.add ⟨[]⟩ f1) with hf2
  have h21 : f2 ≠ f1 := by
    intro h
    have hid := congrArg Food.id h
    have e2 : f2.id = 2 := rfl
    have e1 : f1.id = 1 := rfl
    omega
  have hrem : Fridge.remove (Fridge.add (Fridge.add ⟨[]⟩ f1) f2) f1 = ⟨[f2]⟩ := by
    simp [Fridge.remove, Fridge.add, List.filter_append, h21]
  rw [hrem]
  rfl

/-- C4: foods are totally ordered by expiry date (month first, then
day), tie-broken by name, finally by identity; with the concrete
orderings the claim lists. -/
theorem C4_food_total_order :
    (∀ a b : Food, Food.le a b ∨ Food.le b a)
    ∧ (∀ a b c : Food, Food.le a b → Food.le b c → Food.le a c)
    ∧ (∀ a b : Food, a.best_before ≠ b.best_before →
        Food.cmp a b = BestBefore.cmp a.best_before b.best_before)
    ∧ (∀ a b : Food, a.best_before = b.best_before → a.name ≠ b.name →
        Food.cmp a b = compare a.name b.name)
    ∧ (∀ a b : Food, a.best_before = b.best_before → a.name = b.name →
        Food.cmp a b = compare a.id b.id)
    ∧ (∀ x y : BestBefore, x.month ≠ y.month →
        BestBefore.cmp x y = compare x.month y.month)
    ∧ (∀ x y : BestBefore, x.month = y.month →
        BestBefore.cmp x y = compare x.day y.day)
    ∧ BestBefore.cmp ⟨1, 2⟩ ⟨1, 3⟩ = .lt
    ∧ BestBefore.cmp ⟨5, 1⟩ ⟨6, 1⟩ = .lt
    ∧ (∀ (bb : BestBefore) (i j : Nat) (o1 o2 : Bool),
        Food.cmp ⟨"Apple", bb, i, o1⟩ ⟨"Banana", bb, j, o2⟩ = .lt) := by
  refine ⟨IsTotal.total, fun _ _ _ => TransCmp.le_trans, ?_, ?_, ?_, ?_, ?_,
    by decide, by decide, ?_⟩
  · intro a b hne
    change _ = compare a.best_before b.best_before
    unfold Food.cmp
    rcases h : compare a.best_before b.best_before with _ | _ | _
    · rfl
    · exact absurd ((BestBefore.cmp_eq_iff _ _).mp h) hne
    · rfl
  · intro a b hbb hne
    unfold Food.cmp
    rw [show compare a.best_before b.best_before = Ordering.eq from
      (BestBefore.cmp_eq_iff _ _).mpr hbb]
    rcases h : compare a.name b.name with _ | _ | _
    · rfl
    · exact absurd (Batteries.BEqCmp.cmp_iff_eq.mp h) hne
    · rfl
  · intro a b hbb hname
    unfold Food.cmp
    rw [show compare a.best_before b.best_before = Ordering.eq from
      (BestBefore.cmp_eq_iff _ _).mpr hbb]
    rw [show compare a.name b.name = Ordering.eq from
      Batteries.BEqCmp.cmp_iff_eq.mpr hname]
  · intro x y hne
    unfold BestBefore.cmp
    rcases h : compare x.month y.month with _ | _ | _
    · rfl
    · rw [Nat.compare_eq_eq] at h
      exact absurd h hne
    · rfl
  · intro x y heq
    unfold BestBefore.cmp
    rw [show compare x.month y.month = Ordering.eq from Nat.compare_eq_eq.mpr heq]
  · intro bb i j o1 o2
    unfold Food.cmp
    rw [show compare bb bb = Ordering.eq from OrientedCmp.cmp_refl]
    rw [show compare "Apple" "Banana" = Ordering.lt by decide]

/-- C4 witness: two foods with different expiry dates compare by date. -/
theorem C4_food_total_order_w :
    Food.cmp ⟨"A", ⟨1, 1⟩, 1, false⟩ ⟨"B", ⟨2, 1⟩, 2, false⟩
      = BestBefore.cmp ⟨1, 1⟩ ⟨2, 1⟩ :=
  C4_food_total_order.2.2.1 ⟨"A", ⟨1, 1⟩, 1, false⟩ ⟨"B", ⟨2, 1⟩, 2, false⟩
    (by decide)

/-- C5: `would_be_valid day month` holds iff `month` is in `1..=12` and
`day` is in `1..=DAY_COUNT_FOR_MONTH[month-1]` (February fixed at 29). -/
theorem C5_would_be_valid_iff (day month : Nat) :
    BestBefore.would_be_valid day month = true ↔
      (1 ≤ month ∧ month ≤ 12
        ∧ 1 ≤ day ∧ day ≤ DAY_COUNT_FOR_MONTH.getD (month - 1) 0) := by
  unfold BestBefore.would_be_valid
  simp only [Bool.and_eq_true, decide_eq_true_eq]
  constructor
  · rintro ⟨hc, h1, h2⟩
    have hm : month ∈ MONTHS := by
      simpa [List.elem_iff] using hc
    simp only [MONTHS, List.mem_cons, List.not_mem_nil, or_false] at hm
    exact ⟨by omega, by omega, h1, h2⟩
  · rintro ⟨h1, h12, hd1, hd2⟩
    refine ⟨?_, hd1, hd2⟩
    have : month ∈ MONTHS := by
      simp only [MONTHS, List.mem_cons, List.not_mem_nil, or_false]
      omega
    simpa [List.elem_iff] using this

/-- C6: `update` persists the collection sorted ascending by the food
ordering, whatever the previous order, and rewrites the backing store in
full — the result is independent of the previous store contents. -/
theorem C6_save_sorted (f : Fridge) (s : StoreState) :
    (∃ g : Fridge, Fridge.fromJson ((Fridge.update f s).2.json) = some g
      ∧ List.Sorted Food.le g.foods
      ∧ g.foods.Perm f.foods)
    ∧ (∀ s' : StoreState, Fridge.update f s' = Fridge.update f s) := by
  constructor
  · refine ⟨⟨List.insertionSort Food.le f.foods⟩, ?_, ?_, ?_⟩
    · exact fridge_fromJson_toJson _
    · exact List.sorted_insertionSort Food.le f.foods
    · exact List.perm_insertionSort Food.le f.foods
  · intro s'
    rfl

/-- C7: for months 1..=12, `days_count` is the day plus the sum of the
table entries of the strictly earlier months. -/
theorem C7_days_count_spec (d m : Nat) (h1 : 1 ≤ m) (h2 : m ≤ 12) :
    BestBefore.days_count ⟨d, m⟩ = d + (DAY_COUNT_FOR_MONTH.take (m - 1)).sum := by
  interval_cases m
  · exact Nat.add_comm 0 d
  · exact Nat.add_comm 31 d
  · exact Nat.add_comm 60 d
  · exact Nat.add_comm 91 d
  · exact Nat.add_comm 121 d
  · exact Nat.add_comm 152 d
  · exact Nat.add_comm 182 d
  · exact Nat.add_comm 213 d
  · exact Nat.add_comm 244 d
  · exact Nat.add_comm 274 d
  · exact Nat.add_comm 305 d
  · exact Nat.add_comm 335 d

/-- C7 witness: March 5th is day 5 + 31 + 29 of the year. -/
theorem C7_days_count_spec_w :
    BestBefore.days_count ⟨5, 3⟩ = 5 + (DAY_COUNT_FOR_MONTH.take (3 - 1)).sum :=
  C7_days_count_spec 5 3 (by decide) (by decide)

/-- C8: serializing a collection and deserializing the result restores
the collection exactly — every name, day, month, identity and open flag
is preserved (in particular the two collections are set-equal). -/
theorem C8_serialization_roundtrip (l : List Food) :
    Fridge.fromJson (Fridge.toJson ⟨l⟩) = some ⟨l⟩ :=
  fridge_fromJson_toJson l

/-- C9: an `Error`-level log call appends its line and only then
terminates; it never continues, so every store open/read failure is
logged before termination with no recovery path. -/
theorem C9_error_logs_then_terminates :
    (∀ ts msg, Log.error ts msg
        = [SysEvent.write (ts ++ " " ++ LogLevel.show .Error ++ ": " ++ msg ++ "\n"),
           SysEvent.terminate])
    ∧ (∀ ts msg, (Log.error ts msg).getLast? = some SysEvent.terminate)
    ∧ (∀ (ts : String) (rr : Except String Json) (ev : List SysEvent),
        Fridge.openStore ts rr = .inr ev →
          ∃ line, ev = [SysEvent.write line, SysEvent.terminate]) := by
  refine ⟨fun ts msg => rfl, fun ts msg => rfl, ?_⟩
  intro ts rr ev h
  rcases rr with err | j
  · rw [Fridge.openStore] at h
    have hev : ev = Log.error ts err := by
      injection h.symm
    exact ⟨_, hev⟩
  · rw [Fridge.openStore] at h
    rcases hj : Fridge.fromJson j with _ | fr
    · rw [hj] at h
      have hev : ev = Log.error ts "deserialization error" := by
        injection h.symm
      exact ⟨_, hev⟩
    · rw [hj] at h
      exact absurd h (by simp)

/-- C9 witness: a failed open produces exactly a log write followed by
termination. -/
theorem C9_error_logs_then_terminates_w :
    ∃ line, Log.error "ts" "boom" = [SysEvent.write line, SysEvent.terminate] :=
  C9_error_logs_then_terminates.2.2 "ts" (.error "boom") _ rfl

/-- C10: the food comparison ignores the open flag — two foods agreeing
on date, name and identity compare `Equal` even when their open flags
differ, so the ordering is not antisymmetric with respect to structural
equality on all four fields. -/
theorem C10_cmp_ignores_open (a b : Food)
    (hbb : a.best_before = b.best_before) (hn : a.name = b.name)
    (hid : a.id = b.id) :
    Food.cmp a b = .eq ∧ (a.isOpen ≠ b.isOpen → a ≠ b) := by
  constructor
  · unfold Food.cmp
    rw [show compare a.best_before b.best_before = Ordering.eq from
      (BestBefore.cmp_eq_iff _ _).mpr hbb]
    rw [show compare a.name b.name = Ordering.eq from
      Batteries.BEqCmp.cmp_iff_eq.mpr hn]
    rw [show compare a.id b.id = Ordering.eq from Nat.compare_eq_eq.mpr hid]
  · intro ho he
    exact ho (congrArg Food.isOpen he)

/-- C10 witness: an unopened and an opened milk with the same identity
compare `Equal` yet are structurally different. -/
theorem C10_cmp_ignores_open_w :
    Food.cmp ⟨"Milk", ⟨1, 1⟩, 1, false⟩ ⟨"Milk", ⟨1, 1⟩, 1, true⟩ = .eq
      ∧ (⟨"Milk", ⟨1, 1⟩, 1, false⟩ : Food) ≠ ⟨"Milk", ⟨1, 1⟩, 1, true⟩ := by
  have h := C10_cmp_ignores_open ⟨"Milk", ⟨1, 1⟩, 1, false⟩
    ⟨"Milk", ⟨1, 1⟩, 1, true⟩ rfl rfl rfl
  exact ⟨h.1, h.2 (by decide)⟩
